import Mathlib

/-!
Verification of `src/seg2map/common.py` (seg2map utility module).

The Python functions are shallowly embedded as Lean definitions:
* floats become exact rationals (`ℚ`),
* Python ints become `ℤ`/`ℕ`,
* Python strings become `String`,
* dictionaries become insertion-ordered association lists,
* the filesystem touched by the directory helpers becomes an explicit
  record of directory and file paths, with each helper a pure function
  from filesystem state to filesystem state.
-/

namespace Seg2Map

/-- A Python value restricted to the two runtime types compared by
`convert_wgs_to_utm` (`len(...)` yields an `int`, `"1"` is a `str`). -/
inductive PyVal where
  | int : ℤ → PyVal
  | str : String → PyVal
deriving DecidableEq

/-- Python `==` between values: equal only when the runtime types agree and
the payloads are equal; an `int` never equals a `str`. -/
def pyEq : PyVal → PyVal → Bool
  | .int a, .int b => a == b
  | .str a, .str b => a == b
  | _, _ => false

/-- `(math.floor((lon + 180) / 6) % 60) + 1` from `convert_wgs_to_utm`
(common.py line 233); Python `%` on ints returns a value in `[0, 60)`,
matching `Int.emod` for a positive modulus. -/
def utm_band_num (lon : ℚ) : ℤ :=
  (⌊(lon + 180) / 6⌋ % 60) + 1

/-- `convert_wgs_to_utm` (common.py lines 224-240).  The guard
`len(utm_band) == "1"` compares an `int` to a `str`, embedded faithfully
via `pyEq`. -/
def convert_wgs_to_utm (lon lat : ℚ) : String :=
  let utm_band := toString (utm_band_num lon)
  let utm_band :=
    if pyEq (.int utm_band.length) (.str "1") then "0" ++ utm_band else utm_band
  if 0 ≤ lat then "326" ++ utm_band else "327" ++ utm_band

/-- `get_center_rectangle` (common.py lines 194-204): midpoint of the first
and third vertex of the coordinate ring. -/
def get_center_rectangle (coords : List (ℚ × ℚ)) : ℚ × ℚ :=
  let x1 := ((coords.getD 0 (0, 0)).1)
  let y1 := ((coords.getD 0 (0, 0)).2)
  let x2 := ((coords.getD 2 (0, 0)).1)
  let y2 := ((coords.getD 2 (0, 0)).2)
  ((x1 + x2) / 2, (y1 + y2) / 2)

/-- Python `int(...)` applied to a string of decimal digits, the only shape
`get_epsg_from_geometry` ever feeds it ("326..."/"327..." plus the zone). -/
def str_to_int (s : String) : ℤ :=
  s.data.foldl (fun acc c => acc * 10 + ((c.toNat : ℤ) - 48)) 0

/-- `get_epsg_from_geometry` (common.py lines 207-221), taking the
polygon's exterior-ring coordinate list; `int(utm_code)` parses the string
returned by `convert_wgs_to_utm`. -/
def get_epsg_from_geometry (rect_coords : List (ℚ × ℚ)) : ℤ :=
  let c := get_center_rectangle rect_coords
  let utm_code := convert_wgs_to_utm c.1 c.2
  str_to_int utm_code

/-- Whether an integer is a well-formed UTM EPSG code. -/
def isValidUtmEpsg (e : ℤ) : Prop :=
  (32601 ≤ e ∧ e ≤ 32660) ∨ (32701 ≤ e ∧ e ≤ 32760)

instance (e : ℤ) : Decidable (isValidUtmEpsg e) := by
  unfold isValidUtmEpsg; infer_instance

/-- A concrete rectangle whose centroid is `(-177, 21/2)`: longitude in
`[-180, 180)`, latitude in `[-90, 90]`, UTM zone 1. -/
def zone1Rect : List (ℚ × ℚ) :=
  [(-355/2, 10), (-355/2, 11), (-353/2, 11), (-353/2, 10)]

theorem pyEq_int_str (n : ℤ) (s : String) : pyEq (.int n) (.str s) = false := rfl

theorem toString_length_one (z : ℤ) (h1 : 1 ≤ z) (h2 : z ≤ 9) :
    (toString z).length = 1 := by
  interval_cases z <;> decide

/-- C2: in `convert_wgs_to_utm` the zero-padding branch is never taken:
for every longitude whose UTM zone number is a single digit (1-9) the
returned string is the hemisphere prefix ("326" north / "327" south)
concatenated with the unpadded one-digit zone. -/
theorem c2_zero_padding_never_taken (lon lat : ℚ)
    (h1 : 1 ≤ utm_band_num lon) (h2 : utm_band_num lon ≤ 9) :
    convert_wgs_to_utm lon lat
      = (if 0 ≤ lat then "326" else "327") ++ toString (utm_band_num lon) ∧
    (toString (utm_band_num lon)).length = 1 := by
  refine ⟨?_, toString_length_one _ h1 h2⟩
  unfold convert_wgs_to_utm
  simp [pyEq_int_str]
  split <;> rfl

/-- C2 witness: at longitude -177 the zone is 1 and the function returns
"326" ++ "1" with no padding. -/
theorem c2_zero_padding_never_taken_witness :
    (1 ≤ utm_band_num (-177) ∧ utm_band_num (-177) ≤ 9) ∧
    convert_wgs_to_utm (-177) (21/2)
      = (if (0:ℚ) ≤ 21/2 then "326" else "327") ++ toString (utm_band_num (-177)) ∧
    (toString (utm_band_num (-177))).length = 1 :=
  ⟨⟨by norm_num [utm_band_num], by norm_num [utm_band_num]⟩,
    c2_zero_padding_never_taken (-177) (21/2)
      (by norm_num [utm_band_num]) (by norm_num [utm_band_num])⟩

/-- C1 (code bug): `zone1Rect` has its centroid at longitude -177 in
[-180, 180) and latitude 21/2 in [-90, 90], yet the resolver returns 3261,
which is not a valid UTM EPSG code — the zone is not zero-padded, so the
claimed range {32601..32660} ∪ {32701..32760} is violated. -/
theorem c1_epsg_out_of_range_on_zone1 :
    get_center_rectangle zone1Rect = (-177, 21/2) ∧
    get_epsg_from_geometry zone1Rect = 3261 ∧
    ¬ isValidUtmEpsg (get_epsg_from_geometry zone1Rect) := by
  have h : get_center_rectangle zone1Rect = (-177, 21/2) := by
    norm_num [get_center_rectangle, zone1Rect]
  have h2 : utm_band_num (-177) = 1 := by norm_num [utm_band_num]
  have h3 : get_epsg_from_geometry zone1Rect = 3261 := by
    norm_num [get_epsg_from_geometry, h, convert_wgs_to_utm, h2, pyEq]
    decide
  exact ⟨h, h3, by rw [h3]; decide⟩

/-- `scale` (common.py lines 522-543): nearest-neighbour resize of a 2-D
integer label matrix to shape `(rows, cols)`.  `int(src_rows * r / rows)`
on nonnegative integers is floor division, modeled exactly by `Nat`
division; element access uses `getD` (Python indexing would raise out of
range, but under the hypotheses of the theorems below every access is in
range).  The final `np.array(tmp).reshape((rows, cols))` is the identity
on the already `rows × cols` nested list. -/
def scale (matrix : List (List ℤ)) (rows cols : ℕ) : List (List ℤ) :=
  let src_rows := matrix.length
  let src_cols := (matrix.headD []).length
  (List.range rows).map fun r =>
    (List.range cols).map fun c =>
      (matrix.getD (src_rows * r / rows) []).getD (src_cols * c / cols) 0

/-- A matrix is rectangular: every row has the length of the first row. -/
def Rectangular (matrix : List (List ℤ)) : Prop :=
  ∀ row ∈ matrix, row.length = (matrix.headD []).length

/-- C3: for a non-empty rectangular matrix and positive target dimensions,
cell `(r, c)` of `scale matrix rows cols` is the source cell at row
`⌊src_rows * r / rows⌋` and column `⌊src_cols * c / cols⌋`. -/
theorem c3_scale_nearest_neighbor (matrix : List (List ℤ)) (rows cols r c : ℕ)
    (hm : matrix ≠ []) (hrect : Rectangular matrix)
    (hrows : 0 < rows) (hcols : 0 < cols) (hr : r < rows) (hc : c < cols) :
    ((scale matrix rows cols).getD r []).getD c 0
      = (matrix.getD (matrix.length * r / rows) []).getD
          ((matrix.headD []).length * c / cols) 0 := by
  simp only [scale, List.getD_eq_getElem?_getD, List.getElem?_map,
    List.getElem?_range hr, List.getElem?_range hc]
  simp [List.getElem?_range hc]

/-- C3 witness: scaling the 2×2 matrix [[1,2],[3,4]] to 3×3, the cell
(2,2) samples source cell (⌊2*2/3⌋, ⌊2*2/3⌋) = (1,1). -/
theorem c3_scale_nearest_neighbor_witness :
    ((scale [[1, 2], [3, 4]] 3 3).getD 2 []).getD 2 0
      = (([[1, 2], [3, 4]] : List (List ℤ)).getD (2 * 2 / 3) []).getD (2 * 2 / 3) 0 :=
  c3_scale_nearest_neighbor [[1, 2], [3, 4]] 3 3 2 2 (by decide)
    (by intro row hrow; fin_cases hrow <;> rfl)
    (by decide) (by decide) (by decide) (by decide)

/-- C8: resizing a non-empty rectangular matrix to its own shape is the
identity. -/
theorem c8_scale_same_shape_identity (matrix : List (List ℤ))
    (hm : matrix ≠ []) (hrect : Rectangular matrix) :
    scale matrix matrix.length (matrix.headD []).length = matrix := by
  have hR : 0 < matrix.length := List.length_pos.mpr hm
  apply List.ext_getElem
  · simp [scale]
  intro i h1 h2
  unfold scale
  simp only [List.getElem_map, List.getElem_range]
  have hRi : matrix.length * i / matrix.length = i := by
    rw [Nat.mul_div_cancel_left _ hR]
  rw [hRi]
  have hrow : matrix.getD i [] = matrix[i] := List.getD_eq_getElem matrix [] h2
  rw [hrow]
  have hlen : matrix[i].length = (matrix.headD []).length :=
    hrect _ (List.getElem_mem h2)
  apply List.ext_getElem
  · simp [hlen]
  intro j hj1 hj2
  simp only [List.getElem_map, List.getElem_range]
  have hC : 0 < (matrix.headD []).length := by
    omega
  have hCj : (matrix.headD []).length * j / (matrix.headD []).length = j := by
    rw [Nat.mul_div_cancel_left _ hC]
  rw [hCj]
  exact List.getD_eq_getElem _ 0 hj2

/-- C8 witness: scaling [[1,2],[3,4]] to its own 2×2 shape returns it
unchanged. -/
theorem c8_scale_same_shape_identity_witness :
    scale [[1, 2], [3, 4]] ([[1, 2], [3, 4]] : List (List ℤ)).length
      (([[1, 2], [3, 4]] : List (List ℤ)).headD []).length = [[1, 2], [3, 4]] :=
  c8_scale_same_shape_identity [[1, 2], [3, 4]] (by decide)
    (by intro row hrow; fin_cases hrow <;> rfl)

/-- Python `min(...)` over the flattened data of `rescale_array`
(empty input, on which Python raises, defaults to 0; every use below is on
non-empty input). -/
def pymin : List ℚ → ℚ
  | [] => 0
  | x :: xs => xs.foldl min x

/-- Python `max(...)` over the flattened data of `rescale_array`. -/
def pymax : List ℚ → ℚ
  | [] => 0
  | x :: xs => xs.foldl max x

/-- `rescale_array` (common.py lines 546-554): elementwise
`(mx - mn) * (dat - m) / (M - m) + mn` with `m`/`M` the min/max of the
flattened data; a 1-D list models the flattened numpy array. -/
def rescale_array (dat : List ℚ) (mn mx : ℚ) : List ℚ :=
  let m := pymin dat
  let M := pymax dat
  dat.map fun v => (mx - mn) * (v - m) / (M - m) + mn

theorem pymin_eq_min? (l : List ℚ) : pymin l = l.min?.getD 0 := by
  cases l <;> rfl

theorem pymax_eq_max? (l : List ℚ) : pymax l = l.max?.getD 0 := by
  cases l <;> rfl

/-- C4: on data with at least two distinct values, `rescale_array` maps
element `i` to `(mx - mn) * (v - min) / (max - min) + mn`, and the concrete
run `rescale_array [1,2,3] 0 1` returns `[0, 1/2, 1]`. -/
theorem c4_rescale_array_linear (dat : List ℚ) (mn mx : ℚ) (i : ℕ)
    (hdist : ∃ a ∈ dat, ∃ b ∈ dat, a ≠ b) (hi : i < dat.length) :
    (rescale_array dat mn mx).getD i 0
      = (mx - mn) * (dat.getD i 0 - dat.min?.getD 0)
          / (dat.max?.getD 0 - dat.min?.getD 0) + mn ∧
    rescale_array [1, 2, 3] 0 1 = [0, 1/2, 1] := by
  constructor
  · have hlen : i < (rescale_array dat mn mx).length := by
      simpa [rescale_array] using hi
    rw [List.getD_eq_getElem _ _ hlen, List.getD_eq_getElem _ _ hi]
    simp only [rescale_array, List.getElem_map, pymin_eq_min?, pymax_eq_max?]
  · norm_num [rescale_array, pymin, pymax, min_def, max_def]

/-- C4 witness: at `[1,2,3]`, `mn = 0`, `mx = 1`, index 1, the element
formula holds and the concrete output is `[0, 1/2, 1]`. -/
theorem c4_rescale_array_linear_witness :
    (rescale_array [1, 2, 3] 0 1).getD 1 0
      = (1 - 0) * (([1, 2, 3] : List ℚ).getD 1 0 - ([1, 2, 3] : List ℚ).min?.getD 0)
          / (([1, 2, 3] : List ℚ).max?.getD 0 - ([1, 2, 3] : List ℚ).min?.getD 0) + 0 ∧
    rescale_array [1, 2, 3] 0 1 = [0, 1/2, 1] :=
  c4_rescale_array_linear [1, 2, 3] 0 1 1
    ⟨1, by simp, 2, by simp, by norm_num⟩ (by simp)

/-- A Python value as stored in the config dictionaries: strings, integers
and string lists cover every value `create_json_config` handles (the
`roi_ids` value is a list of key strings). -/
inductive JVal where
  | str : String → JVal
  | num : ℤ → JVal
  | strlist : List String → JVal
deriving DecidableEq

/-- An insertion-ordered Python dict with string keys. -/
abbrev Dict := List (String × JVal)

/-- Python `d[k]` lookup (`none` models a `KeyError`). -/
def dictGet (d : Dict) (k : String) : Option JVal :=
  (d.find? fun p => p.1 == k).map Prod.snd

/-- Python `d[k] = v` on an insertion-ordered dict: overwrite in place when
`k` is already a key, otherwise append at the end. -/
def dictSet (d : Dict) (k : String) (v : JVal) : Dict :=
  if d.any (fun p => p.1 == k) then
    d.map fun p => if p.1 == k then (k, v) else p
  else d ++ [(k, v)]

/-- `create_json_config` (common.py lines 324-360):
`roi_ids = list(inputs.keys())`, `config = {**inputs}`,
`config["roi_ids"] = roi_ids`, `config["settings"] = settings`. -/
def create_json_config (inputs : Dict) (settings : JVal) : Dict :=
  let roi_ids := JVal.strlist (inputs.map fun p => p.1)
  dictSet (dictSet inputs "roi_ids" roi_ids) "settings" settings

theorem dict_find?_eq_none (d : Dict) (k : String)
    (h : k ∉ d.map Prod.fst) : (d.find? fun p => p.1 == k) = none := by
  induction d with
  | nil => rfl
  | cons hd tl ih =>
    have hk : hd.1 ≠ k := by
      intro he
      exact h (by simp [he])
    rw [List.find?_cons_of_neg]
    · exact ih fun hm => h (by simp [hm])
    · simp [hk]

theorem dict_find?_eq_some (d : Dict) (k : String) (v : JVal)
    (hnd : (d.map Prod.fst).Nodup) (hmem : (k, v) ∈ d) :
    (d.find? fun p => p.1 == k) = some (k, v) := by
  induction d with
  | nil => cases hmem
  | cons hd tl ih =>
    have hnd' : hd.1 ∉ tl.map Prod.fst ∧ (tl.map Prod.fst).Nodup := by
      rw [List.map_cons, List.nodup_cons] at hnd
      exact hnd
    rcases List.mem_cons.mp hmem with h | h
    · subst h
      rw [List.find?_cons_of_pos]
      simp
    · have hk : hd.1 ≠ k := by
        intro he
        exact hnd'.1 (by rw [he]; exact List.mem_map.mpr ⟨(k, v), h, rfl⟩)
      rw [List.find?_cons_of_neg]
      · exact ih hnd'.2 h
      · simp [hk]

theorem dictSet_fresh (d : Dict) (k : String) (v : JVal)
    (h : k ∉ d.map Prod.fst) : dictSet d k v = d ++ [(k, v)] := by
  unfold dictSet
  rw [if_neg]
  simp only [List.any_eq_true, beq_iff_eq, not_exists, not_and]
  intro p hp he
  exact h (List.mem_map.mpr ⟨p, hp, he⟩)

/-- C5 (amended): for inputs whose keys are distinct and do not include
"roi_ids" or "settings", `create_json_config` keeps every key-value pair of
`inputs` unchanged, stores the keys of `inputs` in insertion order under
"roi_ids", and stores `settings` under "settings". -/
theorem c5_create_json_config_amended (inputs : Dict) (settings : JVal)
    (hnd : (inputs.map Prod.fst).Nodup)
    (h1 : "roi_ids" ∉ inputs.map Prod.fst)
    (h2 : "settings" ∉ inputs.map Prod.fst) :
    (∀ k v, (k, v) ∈ inputs →
      dictGet (create_json_config inputs settings) k = some v) ∧
    dictGet (create_json_config inputs settings) "roi_ids"
      = some (JVal.strlist (inputs.map fun p => p.1)) ∧
    dictGet (create_json_config inputs settings) "settings" = some settings := by
  have hexp : create_json_config inputs settings
      = inputs ++ [("roi_ids", JVal.strlist (inputs.map fun p => p.1)),
          ("settings", settings)] := by
    simp only [create_json_config]
    rw [dictSet_fresh _ _ _ h1, dictSet_fresh, List.append_assoc]
    · rfl
    · simp [h2]
  refine ⟨?_, ?_, ?_⟩
  · intro k v hmem
    have hk : k ∈ inputs.map Prod.fst := List.mem_map.mpr ⟨(k, v), hmem, rfl⟩
    rw [hexp]
    unfold dictGet
    rw [List.find?_append, dict_find?_eq_some inputs k v hnd hmem]
    rfl
  · rw [hexp]
    unfold dictGet
    rw [List.find?_append, dict_find?_eq_none inputs _ h1]
    rfl
  · rw [hexp]
    unfold dictGet
    rw [List.find?_append, dict_find?_eq_none inputs _ h2]
    rfl

/-- C5 witness: two-ROI inputs with fresh keys "1" and "2". -/
theorem c5_create_json_config_amended_witness :
    (∀ k v, (k, v) ∈ ([("1", JVal.num 17), ("2", JVal.num 20)] : Dict) →
      dictGet (create_json_config [("1", JVal.num 17), ("2", JVal.num 20)]
        (JVal.num 5)) k = some v) ∧
    dictGet (create_json_config [("1", JVal.num 17), ("2", JVal.num 20)]
        (JVal.num 5)) "roi_ids"
      = some (JVal.strlist ["1", "2"]) ∧
    dictGet (create_json_config [("1", JVal.num 17), ("2", JVal.num 20)]
        (JVal.num 5)) "settings" = some (JVal.num 5) :=
  c5_create_json_config_amended [("1", JVal.num 17), ("2", JVal.num 20)]
    (JVal.num 5) (by decide) (by decide) (by decide)

/-- C5 counterexample: when `inputs` itself contains the key "roi_ids",
its value is clobbered by the list of keys, so the result does not contain
every key-value pair of `inputs` unchanged. -/
theorem c5_roi_ids_key_clobbered :
    ("roi_ids", JVal.num 5) ∈ ([("roi_ids", JVal.num 5)] : Dict) ∧
    dictGet (create_json_config [("roi_ids", JVal.num 5)] (JVal.num 0)) "roi_ids"
      = some (JVal.strlist ["roi_ids"]) ∧
    JVal.strlist ["roi_ids"] ≠ JVal.num 5 := by
  refine ⟨by decide, by decide, by decide⟩

/-- A row of the ROI geodataframe: its "id" column as the string
`astype(str)` yields, plus the rest of the row's data. -/
structure Row where
  id : String
  data : JVal
deriving DecidableEq

/-- `extract_roi_by_id` (common.py lines 250-272): with `roi_id` equal to
`None` the whole frame is selected, otherwise the rows whose stringified id
equals `str(roi_id)`; if the selection is empty the function raises
`Id_Not_Found`, modeled as `Except.error`. -/
def extract_roi_by_id (gdf : List Row) (roi_id : Option String) :
    Except String (List Row) :=
  let single_roi :=
    match roi_id with
    | none => gdf
    | some rid => gdf.filter fun r => r.id == rid
  if single_roi.isEmpty then .error "Id_Not_Found" else .ok single_roi

/-- C6 counterexample: on the empty geodataframe, `extract_roi_by_id` with
`roi_id = None` raises `Id_Not_Found` instead of returning the collection
unchanged. -/
theorem c6_none_on_empty_raises :
    extract_roi_by_id ([] : List Row) none = Except.error "Id_Not_Found" ∧
    extract_roi_by_id ([] : List Row) none ≠ Except.ok [] := by
  constructor
  · rfl
  · intro h
    rw [show extract_roi_by_id ([] : List Row) none
        = Except.error "Id_Not_Found" from rfl] at h
    cases h

/-- C6 (amended): for every non-empty geodataframe, `extract_roi_by_id`
with `roi_id = None` returns the collection unchanged; on the empty one it
raises `Id_Not_Found`. -/
theorem c6_none_returns_all (gdf : List Row) (h : gdf ≠ []) :
    extract_roi_by_id gdf none = Except.ok gdf := by
  simp [extract_roi_by_id, h]

/-- C6 witness: a three-row frame is returned unchanged. -/
theorem c6_none_returns_all_witness :
    extract_roi_by_id
        [⟨"1", JVal.num 0⟩, ⟨"2", JVal.num 0⟩, ⟨"3", JVal.num 0⟩] none
      = Except.ok [⟨"1", JVal.num 0⟩, ⟨"2", JVal.num 0⟩, ⟨"3", JVal.num 0⟩] :=
  c6_none_returns_all _ (List.cons_ne_nil _ _)

/-- A value passed to `config_to_file`: a plain dict, a geodataframe, or
any other Python object (carrying an opaque tag). -/
inductive ConfigVal where
  | dict : Dict → ConfigVal
  | gdf : List Row → ConfigVal
  | other : String → ConfigVal
deriving DecidableEq

/-- `config_to_file` (common.py lines 304-321), modeled by its file-write
effect: the list of (path, written object) pairs produced under
`file_path` (path join modeled as "/" concatenation; `os.path.abspath` on
an absolute input is the identity).  A dict writes `config.json`, a
GeoDataFrame writes `config_gdf.geojson`, and any other value matches
neither `isinstance` branch, so nothing is written and nothing raised. -/
def config_to_file (config : ConfigVal) (file_path : String) :
    List (String × ConfigVal) :=
  match config with
  | .dict d => [(file_path ++ "/config.json", .dict d)]
  | .gdf g => [(file_path ++ "/config_gdf.geojson", .gdf g)]
  | .other _ => []

/-- C9: for every config value that is neither a dict nor a GeoDataFrame,
`config_to_file` writes no file (and, being total, raises no error). -/
theorem c9_other_config_writes_nothing (t file_path : String) :
    config_to_file (.other t) file_path = [] := rfl

/-- A file-system path, as the list of its components. -/
abbrev Path := List String

/-- A file-system snapshot: every existing directory and every existing
file, each as a full path.  `os.listdir` returns names in a file-system
dependent order; the model fixes it as the storage order of these lists. -/
structure FS where
  dirs : List Path
  files : List Path
deriving DecidableEq

/-- `q` is a direct child entry of directory `p`. -/
def isChildOf (p q : Path) : Bool :=
  p.isPrefixOf q && q.length == p.length + 1

/-- `os.listdir(p)`: the names of the entries directly inside `p`. -/
def listdir (fs : FS) (p : Path) : List String :=
  ((fs.dirs ++ fs.files).filter (fun q => isChildOf p q)).filterMap
    fun q => q.getLast?

/-- `get_subdirs` (common.py lines 34-40): every directory strictly below
`parent_dir`, as collected by `os.walk`. -/
def get_subdirs (fs : FS) (parent_dir : Path) : List Path :=
  fs.dirs.filter fun q =>
    parent_dir.isPrefixOf q && decide (parent_dir.length < q.length)

/-- Remove the directory entry `p` from the snapshot. -/
def removeDir (fs : FS) (p : Path) : FS :=
  { fs with dirs := fs.dirs.filter fun q => q ≠ p }

/-- The parent-pruning loop of `os.removedirs`: repeatedly `rmdir` the
current path while it exists and is empty, walking up one component at a
time and stopping at the first failure.  The fuel argument is the path
length, which bounds the number of upward steps. -/
def pruneUpFuel : ℕ → FS → Path → FS
  | 0, fs, _ => fs
  | n + 1, fs, p =>
    if p = [] then fs
    else if p ∈ fs.dirs ∧ (listdir fs p).isEmpty then
      pruneUpFuel n (removeDir fs p) p.dropLast
    else fs

/-- `os.removedirs(p)`: remove the leaf directory, then prune every parent
that has become empty.  `delete_empty_dirs` only calls this on directories
that were listed as empty at scan time, where the initial `rmdir` always
succeeds. -/
def removedirs (fs : FS) (p : Path) : FS :=
  pruneUpFuel p.dropLast.length (removeDir fs p) p.dropLast

/-- `delete_empty_dirs` (common.py lines 43-59): collect every
subdirectory below `dir_path`, keep those whose listing is empty at scan
time, and `os.removedirs` each one in turn. -/
def delete_empty_dirs (fs : FS) (dir_path : Path) : FS :=
  let subdirs := get_subdirs fs dir_path
  let remove_dirs := subdirs.filter fun d => (listdir fs d).isEmpty
  remove_dirs.foldl removedirs fs

/-- `root/a/b` with `a` and `b` both empty. -/
def fsAB : FS := ⟨[["root"], ["root", "a"], ["root", "a", "b"]], []⟩

/-- `root/a/b` where `a` also contains a file `f` and `b` is empty. -/
def fsABF : FS :=
  ⟨[["root"], ["root", "a"], ["root", "a", "b"]], [["root", "a", "f"]]⟩

/-- C7 counterexample: on `root/a/b` with both `a` and `b` empty, the
removal is not restricted to subdirectories under the root: the root
directory itself, which is not among its own subdirectories, is removed as
well. -/
theorem c7_removes_more_than_subdirs :
    ["root"] ∈ fsAB.dirs ∧
    ["root"] ∉ get_subdirs fsAB ["root"] ∧
    ["root"] ∉ (delete_empty_dirs fsAB ["root"]).dirs := by
  decide

/-- C7 (amended): `delete_empty_dirs` removes every transitively empty
subdirectory under the root — on `root/a/b` with both empty it removes `b`
and then `a`, and on `root/a/b` with a file in `a` it removes only `b` —
but not only those: a parent (here the root itself) left empty by the
removals is pruned as well. -/
theorem c7_delete_empty_dirs_scenarios :
    delete_empty_dirs fsAB ["root"] = ⟨[], []⟩ ∧
    delete_empty_dirs fsABF ["root"]
      = ⟨[["root"], ["root", "a"]], [["root", "a", "f"]]⟩ := by
  decide

/-- The path of a direct child `c` of the directory `x/root`. -/
def childPath (c : String) : Path := ["x", "root", c]

/-- A snapshot whose every entry under `x/root` is an empty directory,
with `x/root` itself sitting inside the otherwise-empty ancestor `x`. -/
def rootFS (cs : List String) : FS :=
  ⟨["x"] :: ["x", "root"] :: cs.map childPath, []⟩

theorem listdir_rootFS (cs : List String) :
    listdir (rootFS cs) ["x", "root"] = cs := by
  simp only [listdir, rootFS, List.append_nil, List.filter_cons]
  norm_num [isChildOf]
  rw [List.filter_eq_self.mpr, List.filterMap_map]
  · have h2 : (fun q => List.getLast? q) ∘ childPath = fun c => some c := by
      funext c
      simp [childPath]
    rw [h2]
    simp
  · intro q hq
    rcases List.mem_map.mp hq with ⟨c, hc, rfl⟩
    simp [isChildOf, childPath, List.isPrefixOf]

theorem listdir_child (cs : List String) (c : String) :
    listdir (rootFS cs) (childPath c) = [] := by
  have hfil : ((rootFS cs).dirs ++ (rootFS cs).files).filter
      (fun q => isChildOf (childPath c) q) = [] := by
    rw [List.filter_eq_nil_iff]
    intro q hq
    simp only [rootFS, List.append_nil] at hq
    rcases List.mem_cons.mp hq with rfl | hq
    · simp [isChildOf, childPath]
    rcases List.mem_cons.mp hq with rfl | hq
    · simp [isChildOf, childPath]
    rcases List.mem_map.mp hq with ⟨c', hc', rfl⟩
    simp [isChildOf, childPath]
  simp [listdir, hfil]

theorem get_subdirs_rootFS (cs : List String) :
    get_subdirs (rootFS cs) ["x", "root"] = cs.map childPath := by
  simp only [get_subdirs, rootFS, List.filter_cons]
  rw [if_neg (by decide), if_neg (by decide)]
  exact List.filter_eq_self.mpr fun q hq => by
    rcases List.mem_map.mp hq with ⟨c', hc', rfl⟩
    simp [childPath, List.isPrefixOf]

theorem removeDir_rootFS (c : String) (cs : List String) (h : c ∉ cs) :
    removeDir (rootFS (c :: cs)) (childPath c) = rootFS cs := by
  have hself : List.filter (fun q => decide (q ≠ childPath c)) (cs.map childPath)
      = cs.map childPath := by
    refine List.filter_eq_self.mpr fun q hq => ?_
    rcases List.mem_map.mp hq with ⟨c', hc', rfl⟩
    have hne : c' ≠ c := fun he => h (he ▸ hc')
    simp [childPath, hne]
  simp only [removeDir, rootFS, List.map_cons, List.filter_cons]
  rw [if_pos (by simp [childPath]), if_pos (by simp [childPath]),
    if_neg (by simp), hself]

theorem removedirs_last (c : String) :
    removedirs (rootFS [c]) (childPath c) = ⟨[], []⟩ := by
  have h1 : removeDir (rootFS [c]) (childPath c) = rootFS [] :=
    removeDir_rootFS c [] (by simp)
  unfold removedirs
  rw [show (childPath c).dropLast = ["x", "root"] from rfl, h1]
  decide

theorem removedirs_step (c c2 : String) (cs2 : List String)
    (h : c ∉ c2 :: cs2) :
    removedirs (rootFS (c :: c2 :: cs2)) (childPath c) = rootFS (c2 :: cs2) := by
  have h1 : removeDir (rootFS (c :: c2 :: cs2)) (childPath c)
      = rootFS (c2 :: cs2) := removeDir_rootFS c (c2 :: cs2) h
  unfold removedirs
  rw [show (childPath c).dropLast = ["x", "root"] from rfl, h1]
  show pruneUpFuel (1 + 1) _ _ = _
  rw [pruneUpFuel]
  rw [if_neg (by decide), if_neg]
  rw [listdir_rootFS]
  simp

theorem foldl_removedirs_rootFS (cs : List String) (hne : cs ≠ [])
    (hnd : cs.Nodup) :
    (cs.map childPath).foldl removedirs (rootFS cs) = ⟨[], []⟩ := by
  induction cs with
  | nil => exact absurd rfl hne
  | cons c rest ih =>
    rw [List.map_cons, List.foldl_cons]
    cases rest with
    | nil => rw [removedirs_last]; rfl
    | cons c2 cs2 =>
      have hsplit := List.nodup_cons.mp hnd
      rw [removedirs_step c c2 cs2 hsplit.1]
      exact ih (by simp) hsplit.2

/-- C10: when every entry under the root is an empty directory (any
non-empty duplicate-free set of child names), `delete_empty_dirs` removes
not just those children but also the root directory itself and its
empty ancestor above — directories that are not subdirectories of its
argument. -/
theorem c10_root_and_ancestor_pruned (cs : List String) (hne : cs ≠ [])
    (hnd : cs.Nodup) :
    ["x", "root"] ∈ (rootFS cs).dirs ∧ ["x"] ∈ (rootFS cs).dirs ∧
    delete_empty_dirs (rootFS cs) ["x", "root"] = ⟨[], []⟩ := by
  refine ⟨by simp [rootFS], by simp [rootFS], ?_⟩
  simp only [delete_empty_dirs, get_subdirs_rootFS]
  have hfil : (cs.map childPath).filter
      (fun d => (listdir (rootFS cs) d).isEmpty) = cs.map childPath := by
    refine List.filter_eq_self.mpr fun q hq => ?_
    rcases List.mem_map.mp hq with ⟨c', hc', rfl⟩
    rw [listdir_child]
    rfl
  rw [hfil]
  exact foldl_removedirs_rootFS cs hne hnd

/-- C10 witness: with two empty children `b` and `c` under `x/root`, both
`x/root` and `x` exist beforehand and the whole tree is removed. -/
theorem c10_root_and_ancestor_pruned_witness :
    ["x", "root"] ∈ (rootFS ["b", "c"]).dirs ∧
    ["x"] ∈ (rootFS ["b", "c"]).dirs ∧
    delete_empty_dirs (rootFS ["b", "c"]) ["x", "root"] = ⟨[], []⟩ :=
  c10_root_and_ancestor_pruned ["b", "c"] (by decide) (by decide)

end Seg2Map
